import Mathlib

/-!
Verification of the incremental Gmail mailbox synchronization service
(`src/app/app.py`) against its natural-language specification.

The development shallowly embeds the pure logic of the source file:

* `sanitize_filename` embeds the filename sanitization of `app.py` lines
  124-131 (`re.sub(r'[^a-zA-Z0-9_.-]', '_', ...)`, `re.sub(r'_+', '_', ...)`,
  `.strip('_.-')`, with the two placeholder names);
* `natDigits`/`destBlobName` embed the blob key f-string
  `f"{msg_id}/{i}_{sane_filename}"` of line 236;
* `process_new_mail` embeds the reconciliation pass of lines 166-242 over an
  explicit provider environment (`Env`), producing a `Trace` of its effects;
* `process_pubsub_push` embeds the push endpoint of lines 245-294, with the
  Python standard-library decode pipeline (`base64.b64decode`, `bytes.decode`,
  `json.loads`) abstracted as a `DecodeOutcome`-valued environment function.

Theorems named `C1_…`-`C10_…` settle the corresponding claims.
-/

/- ## Filename sanitization (app.py lines 124-131) -/
/-- A character admitted by the regex class `[a-zA-Z0-9_.-]`.
`Char.isAlpha`/`Char.isDigit` are ASCII-only, matching the explicit ASCII
ranges of the regex. -/
def allowedChar (c : Char) : Bool :=
  c.isAlpha || c.isDigit || c == '_' || c == '.' || c == '-'

/-- One character of `re.sub(r'[^a-zA-Z0-9_.-]', '_', filename)`. -/
def replChar (c : Char) : Char :=
  if allowedChar c then c else '_'

/-- `re.sub(r'[^a-zA-Z0-9_.-]', '_', filename)` on the character list. -/
def replaceDisallowed (l : List Char) : List Char :=
  l.map replChar

/-- `re.sub(r'_+', '_', sani)`: collapse each run of underscores to one. -/
def collapseUnderscores : List Char → List Char
  | [] => []
  | [c] => [c]
  | c1 :: c2 :: rest =>
    if c1 = '_' && c2 = '_' then collapseUnderscores (c2 :: rest)
    else c1 :: collapseUnderscores (c2 :: rest)

/-- A character stripped by `.strip('_.-')`. -/
def stripSet (c : Char) : Bool :=
  c == '_' || c == '.' || c == '-'

/-- Strip `'_.-'` characters from the front (left half of `str.strip`). -/
def lstrip (l : List Char) : List Char :=
  l.dropWhile stripSet

/-- Strip `'_.-'` characters from the back (right half of `str.strip`). -/
def rstrip (l : List Char) : List Char :=
  (l.reverse.dropWhile stripSet).reverse

/-- `sani.strip('_.-')`. -/
def stripBoth (l : List Char) : List Char :=
  lstrip (rstrip l)

/-- The three sanitization rewrites of lines 128-130 applied in order. -/
def sanitizeCore (s : String) : List Char :=
  stripBoth (collapseUnderscores (replaceDisallowed s.data))

/-- `sanitize_filename` (lines 124-131).  The `none` case models a Python
`None` argument; `if not filename` also catches the empty string. -/
def sanitize_filename : Option String → String
  | none => "unnamed_attachment"
  | some s =>
    if s = "" then "unnamed_attachment"
    else
      let sani := sanitizeCore s
      if sani = [] then "attachment" else String.mk sani

/- ### Sanitization lemmas -/
/-- Adjacent-pair admissibility: not both underscores. -/
def okPair (c d : Char) : Bool :=
  !(c == '_' && d == '_')

/-- No two adjacent underscores anywhere in the list. -/
def noDoubleUS : List Char → Bool
  | [] => true
  | [_] => true
  | c1 :: c2 :: rest => okPair c1 c2 && noDoubleUS (c2 :: rest)

/- ## Blob keys (app.py line 236: destination_blob_name = msg_id/i_sane) -/
/-- One decimal digit character, as produced by Python `str` on a
non-negative integer. -/
def digitChar : Nat → Char
  | 0 => '0' | 1 => '1' | 2 => '2' | 3 => '3' | 4 => '4'
  | 5 => '5' | 6 => '6' | 7 => '7' | 8 => '8' | _ => '9'

/-- Fuel-driven digit expansion; with fuel at least `n` it produces the
decimal digits of `n`, most significant first. -/
def natDigitsAux : Nat → Nat → List Char
  | 0, n => [digitChar n]
  | fuel + 1, n =>
    if n < 10 then [digitChar n]
    else natDigitsAux fuel (n / 10) ++ [digitChar (n % 10)]

/-- Decimal digit list of a natural number, most significant first: the
embedding of Python `str(i)` inside the f-string of line 236. -/
def natDigits (n : Nat) : List Char :=
  natDigitsAux n n

/-- Numeric value of a digit character (inverse of `digitChar`). -/
def digitVal (c : Char) : Nat :=
  match c with
  | '0' => 0 | '1' => 1 | '2' => 2 | '3' => 3 | '4' => 4
  | '5' => 5 | '6' => 6 | '7' => 7 | '8' => 8 | _ => 9

/-- Value of a most-significant-first digit list. -/
def listVal (l : List Char) : Nat :=
  l.foldl (fun a c => 10 * a + digitVal c) 0

/-- The blob object name `f"{msg_id}/{i}_{sane_filename}"` of line 236. -/
def destBlobName (msgId : String) (i : Nat) (sane : String) : String :=
  msgId ++ "/" ++ String.mk (natDigits i) ++ "_" ++ sane

/- ## Data model of the reconciliation pass (app.py lines 166-242) -/
/-- One entry of a message part's dictionary, as read by lines 225-230:
`part.get('filename')`, `part.get('mimeType', ...)`, and
`part.get('body', default).get('attachmentId')` collapsed into one field. -/
structure PyPart where
  filename : Option String
  mimeType : Option String
  attachmentId : Option String
deriving DecidableEq

/-- A fetched message detail: `message.get('payload', ...).get('parts', [])`
(lines 220-222).  An absent or empty `parts` list is the empty list. -/
structure PyMessage where
  parts : List PyPart
deriving DecidableEq

/-- The `message` sub-dictionary of a `messagesAdded` record (lines 209-211).
`id` models `'id' in msg`; `labelIds` models `msg.get('labelIds', [])`. -/
structure ChangeMsg where
  id : Option String
  labelIds : List String
deriving DecidableEq

/-- One element of `change.get('messagesAdded', [])`.  `message = none`
models both an absent key and the falsy empty-dictionary default of line 209. -/
structure ChangeMsgAdded where
  message : Option ChangeMsg
deriving DecidableEq

/-- One history record: `change.get('messagesAdded', [])` (line 207). -/
structure HistoryChange where
  messagesAdded : List ChangeMsgAdded
deriving DecidableEq

/-- The response of `service.users().history().list(...)` (lines 188-197):
`historyId` models `history.get('historyId', ...)` presence, `history`
models `history.get('history', [])`. -/
structure HistoryResp where
  historyId : Option Int
  history : List HistoryChange
deriving DecidableEq

/-- The provider environment of one pass: the change-history API (which may
raise an `HttpError` carrying a status code), the message API (`get_message`
returns `None` on `HttpError`, line 108), and the attachment API
(`get_attachment` returns the decoded bytes, or `None` on error or on a
missing `data` field, lines 110-121).  Attachment bytes are modelled as a
`String`. -/
structure Env where
  historyList : Int → Except Nat HistoryResp
  getMessage : String → Option PyMessage
  getAttachment : String → String → Option String

/-- The observable effects of one `process_new_mail` invocation: the cursor
store content after the pass (`store`), the number of history fetches, the
message identifiers whose detail fetch was attempted, the attempted
attachment fetches `(messageId, attachmentId)`, the attempted blob uploads
`(blobName, bytes, contentType)`, and whether the pass raised. -/
structure Trace where
  store : Option Int
  historyFetches : Nat
  msgFetches : List String
  attFetches : List (String × String)
  uploads : List (String × String × String)
  errored : Bool
deriving DecidableEq

/-- Python truthiness of the stored `historyId` value at line 172:
`if not last_processed_history_id` is taken for `None` and for `0`. -/
def pyTruthy : Option Int → Bool
  | none => false
  | some v => v != 0

/-- One step of line 211's `message_ids.add(msg['id'])` guarded by line 210:
a truthy message carrying an `id` whose `labelIds` contain `INBOX` is added
to the set (here: appended if not already present). -/
def addMsgAdded (acc : List String) (ma : ChangeMsgAdded) : List String :=
  match ma.message with
  | some msg =>
    match msg.id with
    | some mid =>
      if "INBOX" ∈ msg.labelIds then
        if mid ∈ acc then acc else acc ++ [mid]
      else acc
    | none => acc
  | none => acc

/-- The inner loop of lines 208-211 over one change record. -/
def addChange (acc : List String) (ch : HistoryChange) : List String :=
  ch.messagesAdded.foldl addMsgAdded acc

/-- Lines 205-211: collect into a set (here: a duplicate-free list in first
appearance order) the ids of `messagesAdded` messages that are truthy, carry
an `id`, and whose `labelIds` contain `INBOX`. -/
def collectMessageIds (changes : List HistoryChange) : List String :=
  changes.foldl addChange []

/-- Attachment fetches attempted for one part (lines 224-233): only parts
with a truthy `filename` and a truthy `attachmentId` reach
`get_attachment`. -/
def partAttFetches (msgId : String) (p : PyPart) : List (String × String) :=
  match p.filename with
  | some f =>
    if f = "" then []
    else
      match p.attachmentId with
      | some a => if a = "" then [] else [(msgId, a)]
      | none => []
  | none => []

/-- Blob uploads attempted for one part at index `i` (lines 224-237): after
a successful attachment fetch with truthy bytes, the upload of the
sanitized blob name with the part's content type
(`part.get('mimeType', 'application/octet-stream')`). -/
def partUploads (env : Env) (msgId : String) (i : Nat) (p : PyPart) :
    List (String × String × String) :=
  match p.filename with
  | some f =>
    if f = "" then []
    else
      match p.attachmentId with
      | some a =>
        if a = "" then []
        else
          match env.getAttachment msgId a with
          | some data =>
            if data = "" then []
            else
              [(destBlobName msgId i (sanitize_filename (some f)), data,
                p.mimeType.getD "application/octet-stream")]
          | none => []
      | none => []
  | none => []

/-- Attachment fetches attempted for one message id (lines 217-233): none
when `get_message` fails, else one per qualifying enumerated part. -/
def msgAttFetches (env : Env) (msgId : String) : List (String × String) :=
  match env.getMessage msgId with
  | none => []
  | some m => m.parts.enum.flatMap (fun ip => partAttFetches msgId ip.2)

/-- Blob uploads attempted for one message id (lines 217-239). -/
def msgUploads (env : Env) (msgId : String) : List (String × String × String) :=
  match env.getMessage msgId with
  | none => []
  | some m => m.parts.enum.flatMap (fun ip => partUploads env msgId ip.1 ip.2)

/-- The reconciliation pass `process_new_mail` (lines 166-242), as a pure
function of the provider environment, the stored cursor read at line 170,
and the notification cursor.  Branches mirror the source:
line 172 (`if not last…`: baseline), line 181 (stale skip), lines 187-194
(history fetch, `raise` on `HttpError`), lines 196-203 (empty delta: save
only when the reported id exceeds the start), lines 205-241 (collect,
process each message, unconditional save of the reported id). -/
def process_new_mail (env : Env) (stored : Option Int) (notif : Int) : Trace :=
  if pyTruthy stored then
    if notif ≤ stored.getD 0 then
      { store := stored, historyFetches := 0, msgFetches := [],
        attFetches := [], uploads := [], errored := false }
    else
      match env.historyList (stored.getD 0) with
      | .error _ =>
        { store := stored, historyFetches := 1, msgFetches := [],
          attFetches := [], uploads := [], errored := true }
      | .ok resp =>
        if resp.history = [] then
          if stored.getD 0 < resp.historyId.getD (stored.getD 0) then
            { store := some (resp.historyId.getD (stored.getD 0)),
              historyFetches := 1, msgFetches := [],
              attFetches := [], uploads := [], errored := false }
          else
            { store := stored, historyFetches := 1, msgFetches := [],
              attFetches := [], uploads := [], errored := false }
        else
          { store := some (resp.historyId.getD (stored.getD 0)),
            historyFetches := 1,
            msgFetches := collectMessageIds resp.history,
            attFetches := (collectMessageIds resp.history).flatMap (msgAttFetches env),
            uploads := (collectMessageIds resp.history).flatMap (msgUploads env),
            errored := false }
  else
    { store := some notif, historyFetches := 0, msgFetches := [],
      attFetches := [], uploads := [], errored := false }

/- ## The Pub/Sub push endpoint (app.py lines 245-294) -/
/-- A Python value decoded from JSON.  Numbers are modelled as integers
(Gmail notification payloads carry only integral numbers). -/
inductive Json where
  | null
  | boolean (b : Bool)
  | num (n : Int)
  | str (s : String)
  | arr (elems : List Json)
  | obj (fields : List (String × Json))

/-- Python truthiness of a decoded JSON value. -/
def Json.truthy : Json → Bool
  | .null => false
  | .boolean b => b
  | .num n => n != 0
  | .str s => s != ""
  | .arr l => !l.isEmpty
  | .obj f => !f.isEmpty

/-- First-match field lookup in a decoded JSON object (Python dict keys are
unique, so first-match is exact). -/
def lookupField : List (String × Json) → String → Option Json
  | [], _ => none
  | (k, v) :: t, key => if k = key then some v else lookupField t key

/-- Python `value.get(key)`: returns the field (or `None`) on a dict, raises
`AttributeError` on anything else.  The error value is unit. -/
def jsonGetAttr (j : Json) (key : String) : Except Unit (Option Json) :=
  match j with
  | .obj fields => .ok (lookupField fields key)
  | _ => .error ()

/-- Outcome of the decode pipeline of lines 266-268 applied to the string
value of the `data` field: `base64.b64decode` may raise `binascii.Error`,
`bytes.decode('utf-8')` may raise `UnicodeDecodeError`, `json.loads` may
raise `json.JSONDecodeError`, or the pipeline yields a JSON value.  The
pipeline itself is the Python standard library (external to this
repository), so it enters the model as an environment function. -/
inductive DecodeOutcome where
  | b64Error
  | unicodeError
  | jsonError
  | value (j : Json)

/-- Line 273: `email_address != TARGET_USER_EMAIL`.  `email_address` is the
decoded JSON field (or Python `None`); it equals the configured target
string exactly when it is that same string. -/
def emailMatches (e : Option Json) (target : String) : Bool :=
  match e with
  | some (.str s) => s == target
  | _ => false

/-- Environment of the endpoint: whether the module-scope Datastore and
Storage clients initialized (line 248), the decode pipeline for the `data`
payload, the configured `TARGET_USER_EMAIL`, whether `get_gmail_service`
returns a service (line 279-281), and whether the invoked
`process_new_mail` call raises (line 283, mapped by `except Exception` to
500). -/
structure PushEnv where
  clientsOk : Bool
  decodeData : String → DecodeOutcome
  target : String
  serviceOk : Bool
  passRaises : Bool

/-- The push endpoint `process_pubsub_push` (lines 245-294) as a function
from the parsed request body (`none` models `request.get_json()` yielding
no JSON) to the HTTP status code.  Uncaught exceptions (the
`AttributeError` raised by `.get` on a non-dict before the `try` block of
line 264) surface as the framework's 500.  Inside the `try`, only
`json.JSONDecodeError` maps to 400 (line 289-291); every other exception
maps to 500 (line 292-294). -/
def process_pubsub_push (env : PushEnv) (body : Option Json) : Nat :=
  if !env.clientsOk then 500
  else
    match body with
    | none => 400
    | some envl =>
      if !envl.truthy then 400
      else
        match jsonGetAttr envl "message" with
        | .error _ => 500
        | .ok msgOpt =>
          let pubsubMessage := msgOpt.getD .null
          if !pubsubMessage.truthy then 400
          else
            match jsonGetAttr pubsubMessage "messageId" with
            | .error _ => 500
            | .ok _ =>
              match pubsubMessage with
              | .obj fields =>
                match lookupField fields "data" with
                | none => 400
                | some dataJson =>
                  match dataJson with
                  | .str dataStr =>
                    match env.decodeData dataStr with
                    | .jsonError => 400
                    | .b64Error => 500
                    | .unicodeError => 500
                    | .value notifJson =>
                      match notifJson with
                      | .obj nf =>
                        if emailMatches (lookupField nf "emailAddress") env.target then
                          if !env.serviceOk then 500
                          else if env.passRaises then 500
                          else 204
                        else 204
                      | _ => 500
                  | _ => 500
              | _ => 500

/- ## Branch lemmas for process_new_mail -/
/-- A qualifying added message for id `mid` inside one `messagesAdded`
record. -/
def qualifies (ma : ChangeMsgAdded) (mid : String) : Prop :=
  ∃ msg, ma.message = some msg ∧ msg.id = some mid ∧ "INBOX" ∈ msg.labelIds

/- ## Cursor monotonicity machinery -/
/-- Order on cursor-store states: any held value can only grow (a store may
gain a value but never lose one). -/
def storeLe (a b : Option Int) : Prop :=
  ∀ v, a = some v → ∃ w, b = some w ∧ v ≤ w

/-- A provider whose history responses report a cursor no lower than the
start cursor they were queried from (Gmail's documented behavior: the
response `historyId` is the mailbox's current cursor). -/
def goodEnv (e : Env) : Prop :=
  ∀ s resp, e.historyList s = .ok resp → s ≤ resp.historyId.getD s

/-- The sequence of cursor-store states along a run of passes, starting
from `stored`; entry `k+1` is the store after the `k`-th pass. -/
def cursorTrajectory (stored : Option Int) (passes : List (Env × Int)) :
    List (Option Int) :=
  passes.scanl (fun st pr => (process_new_mail pr.1 st pr.2).store) stored

/- ## Concrete environments used by witnesses and counterexamples -/
/-- One change record adding message `m1` with the `INBOX` label. -/
def inboxChange : HistoryChange :=
  { messagesAdded := [{ message := some { id := some "m1", labelIds := ["INBOX"] } }] }

/-- A provider whose delta reports a cursor (5) lower than any queried start
cursor and contains a change record. -/
def lowDeltaEnv : Env :=
  { historyList := fun _ => .ok { historyId := some 5, history := [inboxChange] }
    getMessage := fun _ => none
    getAttachment := fun _ _ => none }

/-- A provider that reports the start cursor expired from its retention
window: `history.list` raises `HttpError` 404. -/
def expiredEnv : Env :=
  { historyList := fun _ => .error 404
    getMessage := fun _ => none
    getAttachment := fun _ _ => none }

/-- A provider whose delta always reports a cursor five above the queried
start cursor. -/
def goodDemoEnv : Env :=
  { historyList := fun s => .ok { historyId := some (s + 5), history := [inboxChange] }
    getMessage := fun _ => none
    getAttachment := fun _ _ => none }

/-- A delta adding two `INBOX` messages `m1` and `m2`, reporting cursor 42. -/
def mixedResp : HistoryResp :=
  { historyId := some 42
    history :=
      [{ messagesAdded :=
          [{ message := some { id := some "m1", labelIds := ["INBOX"] } },
           { message := some { id := some "m2", labelIds := ["INBOX", "UNREAD"] } }] }] }

/-- A provider where `m1`'s detail fetch succeeds with one attachment and
`m2`'s detail fetch fails. -/
def mixedEnv : Env :=
  { historyList := fun s => if s = 10 then .ok mixedResp else .error 500
    getMessage := fun mid =>
      if mid = "m1" then
        some { parts :=
          [{ filename := some "report.pdf", mimeType := some "application/pdf",
             attachmentId := some "att1" }] }
      else none
    getAttachment := fun _ a => if a = "att1" then some "BYTES" else none }

/-- A `messagesAdded` record labeled `SPAM`. -/
def spamRec : ChangeMsgAdded :=
  { message := some { id := some "spam1", labelIds := ["SPAM"] } }

/-- A `messagesAdded` record labeled `INBOX`. -/
def inboxRec : ChangeMsgAdded :=
  { message := some { id := some "in1", labelIds := ["INBOX"] } }

/-- The same message id appearing a second time with extra labels. -/
def inboxRec2 : ChangeMsgAdded :=
  { message := some { id := some "in1", labelIds := ["INBOX", "UNREAD"] } }

/-- A delta mixing `SPAM` and `INBOX` records with a duplicated id. -/
def spamInboxChanges : List HistoryChange :=
  [{ messagesAdded := [spamRec, inboxRec, inboxRec2] }]

/-- The push environment of the C5 counterexample: the data payload is the
base64 string `WzFd`, which decodes to the valid JSON array `[1]` — valid
JSON, but not an object of shape `(emailAddress, historyId)`. -/
def arrayDataPushEnv : PushEnv :=
  { clientsOk := true
    decodeData := fun _ => .value (.arr [.num 1])
    target := "user@example.com"
    serviceOk := true
    passRaises := false }

/-- A push environment whose data payload fails `json.loads`. -/
def jsonErrorPushEnv : PushEnv :=
  { clientsOk := true
    decodeData := fun _ => .jsonError
    target := "user@example.com"
    serviceOk := true
    passRaises := false }

/- ## Theorems -/

theorem okPair_comm (c d : Char) : okPair c d = okPair d c := by
  simp [okPair, Bool.and_comm]

theorem noDoubleUS_tail {c : Char} {l : List Char}
    (h : noDoubleUS (c :: l) = true) : noDoubleUS l = true := by
  cases l with
  | nil => rfl
  | cons d t => exact (Bool.and_elim_right h)

theorem noDoubleUS_cons {c : Char} {l : List Char}
    (hl : noDoubleUS l = true)
    (hh : ∀ d, l.head? = some d → okPair c d = true) :
    noDoubleUS (c :: l) = true := by
  cases l with
  | nil => rfl
  | cons d t =>
    have := hh d rfl
    simp only [noDoubleUS, this, hl, Bool.and_self]

theorem collapseUnderscores_head :
    ∀ l : List Char, (collapseUnderscores l).head? = l.head? := by
  intro l
  induction l using collapseUnderscores.induct with
  | case1 => rfl
  | case2 c => rfl
  | case3 c1 c2 rest h ih =>
    simp only [collapseUnderscores, h, if_true]
    rw [ih]
    simp only [List.head?_cons]
    have h1 : c1 = '_' := by simpa using (Bool.and_elim_left h)
    have h2 : c2 = '_' := by simpa using (Bool.and_elim_right h)
    rw [h1, h2]
  | case4 c1 c2 rest h ih =>
    rw [collapseUnderscores, if_neg h]
    rfl

theorem noDoubleUS_collapseUnderscores :
    ∀ l : List Char, noDoubleUS (collapseUnderscores l) = true := by
  intro l
  induction l using collapseUnderscores.induct with
  | case1 => rfl
  | case2 c => rfl
  | case3 c1 c2 rest h ih =>
    simpa [collapseUnderscores, h] using ih
  | case4 c1 c2 rest h ih =>
    rw [collapseUnderscores]
    rw [if_neg (by simpa using h)]
    refine noDoubleUS_cons ih ?_
    intro d hd
    rw [collapseUnderscores_head] at hd
    simp only [List.head?_cons, Option.some_inj] at hd
    subst hd
    simp only [Bool.and_eq_true, decide_eq_true_eq, not_and] at h
    simp only [okPair, Bool.not_eq_eq_eq_not, Bool.not_true, Bool.and_eq_false_iff]
    by_cases h1 : c1 = '_'
    · right
      simpa using h (by simpa using h1)
    · left
      simpa using h1

theorem mem_collapseUnderscores {c : Char} :
    ∀ {l : List Char}, c ∈ collapseUnderscores l → c ∈ l := by
  intro l
  induction l using collapseUnderscores.induct with
  | case1 => simp [collapseUnderscores]
  | case2 d => simp [collapseUnderscores]
  | case3 c1 c2 rest h ih =>
    intro hc
    simp only [collapseUnderscores, h, if_true] at hc
    exact List.mem_cons_of_mem _ (ih hc)
  | case4 c1 c2 rest h ih =>
    intro hc
    rw [collapseUnderscores, if_neg (by simpa using h)] at hc
    rcases List.mem_cons.mp hc with h1 | h2
    · exact h1 ▸ List.mem_cons_self _ _
    · exact List.mem_cons_of_mem _ (ih h2)

theorem dropWhile_head_false (p : Char → Bool) :
    ∀ (l : List Char) (c : Char),
      (List.dropWhile p l).head? = some c → p c = false := by
  intro l
  induction l with
  | nil => intro c h; simp [List.dropWhile] at h
  | cons a t ih =>
    intro c h
    by_cases hpa : p a = true
    · rw [List.dropWhile_cons_of_pos hpa] at h
      exact ih c h
    · rw [List.dropWhile_cons_of_neg hpa] at h
      simp only [List.head?_cons, Option.some_inj] at h
      subst h
      simpa using hpa

theorem noDoubleUS_dropWhile (p : Char → Bool) :
    ∀ l : List Char, noDoubleUS l = true → noDoubleUS (List.dropWhile p l) = true := by
  intro l
  induction l with
  | nil => intro _; rfl
  | cons a t ih =>
    intro h
    by_cases hpa : p a = true
    · rw [List.dropWhile_cons_of_pos hpa]
      exact ih (noDoubleUS_tail h)
    · rwa [List.dropWhile_cons_of_neg hpa]

theorem noDoubleUS_concat :
    ∀ (l : List Char) (c : Char),
      noDoubleUS (l ++ [c]) =
        (noDoubleUS l &&
          (match l.getLast? with
           | some d => okPair d c
           | none => true)) := by
  intro l
  induction l with
  | nil => intro c; rfl
  | cons a t ih =>
    intro c
    cases t with
    | nil => simp [noDoubleUS, okPair]
    | cons b t' =>
      have : (a :: b :: t') ++ [c] = a :: ((b :: t') ++ [c]) := rfl
      rw [this]
      show (okPair a b && noDoubleUS ((b :: t') ++ [c])) = _
      rw [ih c]
      simp only [List.getLast?_cons_cons]
      cases hgl : (b :: t').getLast? with
      | none => simp at hgl
      | some d =>
        simp only [noDoubleUS, Bool.and_assoc]

theorem noDoubleUS_reverse :
    ∀ l : List Char, noDoubleUS l.reverse = noDoubleUS l := by
  intro l
  induction l with
  | nil => rfl
  | cons a t ih =>
    rw [List.reverse_cons, noDoubleUS_concat, ih]
    rw [List.getLast?_reverse]
    cases t with
    | nil => rfl
    | cons b t' =>
      simp only [List.head?_cons, noDoubleUS, okPair_comm b a, Bool.and_comm]

theorem noDoubleUS_stripBoth {l : List Char} (h : noDoubleUS l = true) :
    noDoubleUS (stripBoth l) = true := by
  unfold stripBoth rstrip lstrip
  apply noDoubleUS_dropWhile
  rw [noDoubleUS_reverse]
  apply noDoubleUS_dropWhile
  rw [noDoubleUS_reverse]
  exact h

theorem mem_stripBoth {c : Char} {l : List Char} (h : c ∈ stripBoth l) : c ∈ l := by
  unfold stripBoth rstrip lstrip at h
  have h1 := (List.dropWhile_sublist stripSet).subset h
  rw [List.mem_reverse] at h1
  have h2 := (List.dropWhile_sublist stripSet).subset h1
  rwa [List.mem_reverse] at h2

theorem stripBoth_head_false {l : List Char} {c : Char}
    (h : (stripBoth l).head? = some c) : stripSet c = false := by
  unfold stripBoth lstrip at h
  exact dropWhile_head_false stripSet _ c h

theorem getLast?_of_suffix {l s : List Char} (hs : s <:+ l) (hne : s ≠ []) :
    s.getLast? = l.getLast? := by
  obtain ⟨a, rfl⟩ := hs
  rw [List.getLast?_append]
  cases hgl : s.getLast? with
  | none => exact absurd (List.getLast?_eq_none_iff.mp hgl) hne
  | some d => rfl

theorem getLast?_reverse' (l : List Char) : l.reverse.getLast? = l.head? := by
  rw [← List.head?_reverse, List.reverse_reverse]

theorem stripBoth_getLast_false {l : List Char} {c : Char}
    (h : (stripBoth l).getLast? = some c) : stripSet c = false := by
  have hne : stripBoth l ≠ [] := by
    intro hnil
    rw [hnil] at h
    simp at h
  unfold stripBoth lstrip at h hne
  have hsuf : List.dropWhile stripSet (rstrip l) <:+ rstrip l :=
    List.dropWhile_suffix stripSet
  rw [getLast?_of_suffix hsuf hne] at h
  unfold rstrip at h
  rw [getLast?_reverse'] at h
  exact dropWhile_head_false stripSet _ c h

theorem allowedChar_replChar (c : Char) : allowedChar (replChar c) = true := by
  unfold replChar
  by_cases h : allowedChar c = true
  · rwa [if_pos h]
  · rw [if_neg h]; decide

theorem mem_sanitizeCore_allowed {s : String} {c : Char}
    (h : c ∈ sanitizeCore s) : allowedChar c = true := by
  unfold sanitizeCore at h
  have h1 := mem_collapseUnderscores (mem_stripBoth h)
  unfold replaceDisallowed at h1
  obtain ⟨d, _, rfl⟩ := List.mem_map.mp h1
  exact allowedChar_replChar d

theorem noDoubleUS_sanitizeCore (s : String) :
    noDoubleUS (sanitizeCore s) = true := by
  unfold sanitizeCore
  exact noDoubleUS_stripBoth (noDoubleUS_collapseUnderscores _)

theorem digitVal_digitChar {m : Nat} (h : m < 10) : digitVal (digitChar m) = m := by
  interval_cases m <;> rfl

theorem digitChar_ne_us (m : Nat) : digitChar m ≠ '_' := by
  unfold digitChar
  split <;> decide

theorem listVal_append_digit (l : List Char) (c : Char) :
    listVal (l ++ [c]) = 10 * listVal l + digitVal c := by
  unfold listVal
  rw [List.foldl_append]
  rfl

theorem listVal_single {n : Nat} (h : n < 10) : listVal [digitChar n] = n := by
  unfold listVal
  simp [List.foldl, digitVal_digitChar h]

theorem listVal_natDigitsAux :
    ∀ (fuel n : Nat), n ≤ fuel → listVal (natDigitsAux fuel n) = n := by
  intro fuel
  induction fuel with
  | zero =>
    intro n hn
    have : n = 0 := Nat.le_zero.mp hn
    subst this
    exact listVal_single (by decide)
  | succ fuel ih =>
    intro n hn
    by_cases h : n < 10
    · rw [natDigitsAux, if_pos h]
      exact listVal_single h
    · rw [natDigitsAux, if_neg h]
      rw [listVal_append_digit]
      have hd : n / 10 ≤ fuel := by
        have h1 : n / 10 < n :=
          Nat.div_lt_self (Nat.lt_of_lt_of_le (by decide) (Nat.le_of_not_lt h)) (by decide)
        omega
      rw [ih _ hd, digitVal_digitChar (Nat.mod_lt _ (by decide))]
      omega

theorem listVal_natDigits (n : Nat) : listVal (natDigits n) = n :=
  listVal_natDigitsAux n n (le_refl n)

theorem natDigits_inj {m n : Nat} (h : natDigits m = natDigits n) : m = n := by
  have := listVal_natDigits m
  rw [h, listVal_natDigits] at this
  exact this.symm

theorem mem_natDigitsAux_ne_us {c : Char} :
    ∀ {fuel n : Nat}, c ∈ natDigitsAux fuel n → c ≠ '_' := by
  intro fuel
  induction fuel with
  | zero =>
    intro n hc
    simp only [natDigitsAux, List.mem_singleton] at hc
    exact hc ▸ digitChar_ne_us n
  | succ fuel ih =>
    intro n hc
    by_cases h : n < 10
    · rw [natDigitsAux, if_pos h] at hc
      simp only [List.mem_singleton] at hc
      exact hc ▸ digitChar_ne_us n
    · rw [natDigitsAux, if_neg h] at hc
      rcases List.mem_append.mp hc with h1 | h2
      · exact ih h1
      · simp only [List.mem_singleton] at h2
        exact h2 ▸ digitChar_ne_us _

theorem mem_natDigits_ne_us {c : Char} {n : Nat} (h : c ∈ natDigits n) : c ≠ '_' :=
  mem_natDigitsAux_ne_us h

theorem takeWhile_digits_us (s : List Char) :
    ∀ d : List Char, (∀ c ∈ d, c ≠ '_') →
      (d ++ '_' :: s).takeWhile (fun c => !(c == '_')) = d := by
  intro d
  induction d with
  | nil =>
    intro _
    simp [List.takeWhile]
  | cons a t ih =>
    intro hall
    have ha : a ≠ '_' := hall a (List.mem_cons_self _ _)
    have : ((a :: t) ++ '_' :: s).takeWhile (fun c => !(c == '_')) =
        a :: ((t ++ '_' :: s).takeWhile (fun c => !(c == '_'))) := by
      rw [List.cons_append, List.takeWhile_cons_of_pos (by simpa using ha)]
    rw [this, ih (fun c hc => hall c (List.mem_cons_of_mem _ hc))]

/-- Distinct part indices give distinct decimal prefixes before the first
underscore of the blob-name tail, hence distinct tails. -/
theorem digits_us_inj {i j : Nat} {s1 s2 : List Char}
    (h : natDigits i ++ '_' :: s1 = natDigits j ++ '_' :: s2) : i = j := by
  have h1 := takeWhile_digits_us s1 (natDigits i) (fun c hc => mem_natDigits_ne_us hc)
  have h2 := takeWhile_digits_us s2 (natDigits j) (fun c hc => mem_natDigits_ne_us hc)
  rw [h] at h1
  rw [h1] at h2
  exact natDigits_inj h2

theorem mem_addMsgAdded {acc : List String} {ma : ChangeMsgAdded} {mid : String} :
    mid ∈ addMsgAdded acc ma ↔ mid ∈ acc ∨ qualifies ma mid := by
  obtain ⟨om⟩ := ma
  cases om with
  | none => simp [addMsgAdded, qualifies]
  | some msg =>
    obtain ⟨oid, labels⟩ := msg
    cases oid with
    | none => simp [addMsgAdded, qualifies]
    | some mid' =>
      by_cases hl : "INBOX" ∈ labels
      · by_cases hin : mid' ∈ acc
        · simp only [addMsgAdded, if_pos hl, if_pos hin, qualifies]
          constructor
          · exact Or.inl
          · rintro (h | ⟨msg', h1, h2, h3⟩)
            · exact h
            · simp only [Option.some_inj] at h1
              subst h1
              simp only [Option.some_inj] at h2
              subst h2
              exact hin
        · simp only [addMsgAdded, if_pos hl, if_neg hin, qualifies,
            List.mem_append, List.mem_singleton]
          constructor
          · rintro (h | rfl)
            · exact Or.inl h
            · exact Or.inr ⟨_, rfl, rfl, hl⟩
          · rintro (h | ⟨msg', h1, h2, h3⟩)
            · exact Or.inl h
            · simp only [Option.some_inj] at h1
              subst h1
              simp only [Option.some_inj] at h2
              exact Or.inr h2.symm
      · simp only [addMsgAdded, if_neg hl, qualifies]
        constructor
        · exact Or.inl
        · rintro (h | ⟨msg', h1, h2, h3⟩)
          · exact h
          · simp only [Option.some_inj] at h1
            subst h1
            exact absurd h3 hl

theorem nodup_addMsgAdded {acc : List String} {ma : ChangeMsgAdded}
    (h : acc.Nodup) : (addMsgAdded acc ma).Nodup := by
  obtain ⟨om⟩ := ma
  cases om with
  | none => exact h
  | some msg =>
    obtain ⟨oid, labels⟩ := msg
    cases oid with
    | none => exact h
    | some mid =>
      by_cases hl : "INBOX" ∈ labels
      · by_cases hin : mid ∈ acc
        · simpa only [addMsgAdded, if_pos hl, if_pos hin] using h
        · simp only [addMsgAdded, if_pos hl, if_neg hin]
          simp [List.nodup_append, h, hin]
      · simpa only [addMsgAdded, if_neg hl] using h

theorem mem_addChange {acc : List String} {ch : HistoryChange} {mid : String} :
    mid ∈ addChange acc ch ↔ mid ∈ acc ∨ ∃ ma ∈ ch.messagesAdded, qualifies ma mid := by
  unfold addChange
  generalize ch.messagesAdded = mas
  induction mas generalizing acc with
  | nil => simp
  | cons ma mas ih =>
    rw [List.foldl_cons, ih, mem_addMsgAdded]
    simp only [List.mem_cons]
    constructor
    · rintro ((h | h) | ⟨ma', hma', hq⟩)
      · exact Or.inl h
      · exact Or.inr ⟨ma, Or.inl rfl, h⟩
      · exact Or.inr ⟨ma', Or.inr hma', hq⟩
    · rintro (h | ⟨ma', (rfl | hma'), hq⟩)
      · exact Or.inl (Or.inl h)
      · exact Or.inl (Or.inr hq)
      · exact Or.inr ⟨ma', hma', hq⟩

theorem nodup_addChange {acc : List String} {ch : HistoryChange}
    (h : acc.Nodup) : (addChange acc ch).Nodup := by
  unfold addChange
  generalize ch.messagesAdded = mas
  induction mas generalizing acc with
  | nil => exact h
  | cons ma mas ih => exact ih (nodup_addMsgAdded h)

theorem mem_collectMessageIds {changes : List HistoryChange} {mid : String} :
    mid ∈ collectMessageIds changes ↔
      ∃ ch ∈ changes, ∃ ma ∈ ch.messagesAdded, qualifies ma mid := by
  unfold collectMessageIds
  have main : ∀ (chs : List HistoryChange) (acc : List String),
      mid ∈ chs.foldl addChange acc ↔
        mid ∈ acc ∨ ∃ ch ∈ chs, ∃ ma ∈ ch.messagesAdded, qualifies ma mid := by
    intro chs
    induction chs with
    | nil => simp
    | cons ch chs ih =>
      intro acc
      rw [List.foldl_cons, ih, mem_addChange]
      simp only [List.mem_cons]
      constructor
      · rintro ((h | h) | ⟨ch', hch', hq⟩)
        · exact Or.inl h
        · exact Or.inr ⟨ch, Or.inl rfl, h⟩
        · exact Or.inr ⟨ch', Or.inr hch', hq⟩
      · rintro (h | ⟨ch', (rfl | hch'), hq⟩)
        · exact Or.inl (Or.inl h)
        · exact Or.inl (Or.inr hq)
        · exact Or.inr ⟨ch', hch', hq⟩
  rw [main]
  simp

theorem nodup_collectMessageIds (changes : List HistoryChange) :
    (collectMessageIds changes).Nodup := by
  unfold collectMessageIds
  have main : ∀ (chs : List HistoryChange) (acc : List String),
      acc.Nodup → (chs.foldl addChange acc).Nodup := by
    intro chs
    induction chs with
    | nil => exact fun _ h => h
    | cons ch chs ih => exact fun acc h => ih _ (nodup_addChange h)
  exact main changes [] List.nodup_nil

theorem pnm_baseline (env : Env) (stored : Option Int) (notif : Int)
    (h : pyTruthy stored = false) :
    process_new_mail env stored notif =
      { store := some notif, historyFetches := 0, msgFetches := [],
        attFetches := [], uploads := [], errored := false } := by
  unfold process_new_mail
  rw [if_neg (by simp [h])]

theorem pnm_stale (env : Env) (s notif : Int) (hs : s ≠ 0) (h : notif ≤ s) :
    process_new_mail env (some s) notif =
      { store := some s, historyFetches := 0, msgFetches := [],
        attFetches := [], uploads := [], errored := false } := by
  unfold process_new_mail
  rw [if_pos (by simp [pyTruthy, hs])]
  simp only [Option.getD_some]
  rw [if_pos h]

theorem pnm_error (env : Env) (s notif : Int) (code : Nat)
    (hs : s ≠ 0) (hn : s < notif) (herr : env.historyList s = .error code) :
    process_new_mail env (some s) notif =
      { store := some s, historyFetches := 1, msgFetches := [],
        attFetches := [], uploads := [], errored := true } := by
  unfold process_new_mail
  rw [if_pos (by simp [pyTruthy, hs])]
  simp only [Option.getD_some]
  rw [if_neg (not_le.mpr hn), herr]

theorem pnm_empty (env : Env) (s notif : Int) (resp : HistoryResp)
    (hs : s ≠ 0) (hn : s < notif) (hok : env.historyList s = .ok resp)
    (hemp : resp.history = []) :
    process_new_mail env (some s) notif =
      (if s < resp.historyId.getD s then
        { store := some (resp.historyId.getD s), historyFetches := 1,
          msgFetches := [], attFetches := [], uploads := [], errored := false }
      else
        { store := some s, historyFetches := 1, msgFetches := [],
          attFetches := [], uploads := [], errored := false }) := by
  unfold process_new_mail
  rw [if_pos (by simp [pyTruthy, hs])]
  simp only [Option.getD_some]
  rw [if_neg (not_le.mpr hn), hok]
  simp [hemp]

theorem pnm_changes (env : Env) (s notif : Int) (resp : HistoryResp)
    (hs : s ≠ 0) (hn : s < notif) (hok : env.historyList s = .ok resp)
    (hne : resp.history ≠ []) :
    process_new_mail env (some s) notif =
      { store := some (resp.historyId.getD s), historyFetches := 1,
        msgFetches := collectMessageIds resp.history,
        attFetches := (collectMessageIds resp.history).flatMap (msgAttFetches env),
        uploads := (collectMessageIds resp.history).flatMap (msgUploads env),
        errored := false } := by
  unfold process_new_mail
  rw [if_pos (by simp [pyTruthy, hs])]
  simp only [Option.getD_some]
  rw [if_neg (not_le.mpr hn), hok]
  simp only [if_neg hne]

theorem scanl_head {α β : Type} (f : α → β → α) (b : α) (l : List β) :
    (List.scanl f b l).head? = some b := by
  cases l <;> rfl

theorem pnm_storeLe {env : Env} {st : Option Int} {n : Int}
    (hg : goodEnv env) (hn : 0 ≤ n) :
    storeLe st (process_new_mail env st n).store := by
  intro v hv
  subst hv
  by_cases ht : pyTruthy (some v) = true
  · have hv0 : v ≠ 0 := by simpa [pyTruthy] using ht
    by_cases hle : n ≤ v
    · rw [pnm_stale env v n hv0 hle]
      exact ⟨v, rfl, le_refl v⟩
    · have hlt : v < n := not_le.mp hle
      cases hres : env.historyList v with
      | error code =>
        rw [pnm_error env v n code hv0 hlt hres]
        exact ⟨v, rfl, le_refl v⟩
      | ok resp =>
        have hgood := hg v resp hres
        by_cases hemp : resp.history = []
        · rw [pnm_empty env v n resp hv0 hlt hres hemp]
          by_cases hadv : v < resp.historyId.getD v
          · rw [if_pos hadv]
            exact ⟨_, rfl, le_of_lt hadv⟩
          · rw [if_neg hadv]
            exact ⟨v, rfl, le_refl v⟩
        · rw [pnm_changes env v n resp hv0 hlt hres hemp]
          exact ⟨_, rfl, hgood⟩
  · have hv0 : v = 0 := by
      by_contra hne
      exact ht (by simpa [pyTruthy] using hne)
    rw [pnm_baseline env (some v) n (by simpa using ht)]
    exact ⟨n, rfl, hv0 ▸ hn⟩

theorem chain_storeLe (passes : List (Env × Int)) :
    ∀ st : Option Int, (∀ p ∈ passes, goodEnv p.1 ∧ 0 ≤ p.2) →
      List.Chain' storeLe (cursorTrajectory st passes) := by
  induction passes with
  | nil =>
    intro st _
    exact List.chain'_singleton st
  | cons p ps ih =>
    intro st hall
    unfold cursorTrajectory
    rw [List.scanl]
    refine List.chain'_cons'.mpr ⟨?_, ih _ (fun q hq => hall q (List.mem_cons_of_mem _ hq))⟩
    intro b hb
    rw [scanl_head] at hb
    cases hb
    obtain ⟨hg, hn⟩ := hall p (List.mem_cons_self _ _)
    exact pnm_storeLe hg hn

/- ## Claim theorems -/
/-- C4: when the cursor store holds no value for the mailbox identity,
`process_new_mail` stores the notification's cursor value and returns with
no history fetch, no message or attachment fetch, and no upload. -/
theorem C4_baseline_on_empty (env : Env) (n : Int) :
    process_new_mail env none n =
      { store := some n, historyFetches := 0, msgFetches := [],
        attFetches := [], uploads := [], errored := false } :=
  pnm_baseline env none n rfl

/-- C10: a stored cursor equal to 0 is falsy at line 172, so
`process_new_mail` treats it exactly as an absent store: it overwrites the
store with the notification's cursor and performs no history fetch, rather
than applying the staleness comparison against 0. -/
theorem C10_zero_cursor_as_absent (env : Env) (n : Int) :
    process_new_mail env (some 0) n = process_new_mail env none n ∧
    (process_new_mail env (some 0) n).store = some n ∧
    (process_new_mail env (some 0) n).historyFetches = 0 := by
  have h0 := pnm_baseline env (some 0) n rfl
  have h1 := pnm_baseline env none n rfl
  rw [h0, h1]
  exact ⟨rfl, rfl, rfl⟩

/-- C3: a notification cursor at or below the stored cursor is filtered at
lines 172-183: no history fetch, no message or attachment fetch, no upload,
and the stored cursor value is unchanged (through the re-write of the same
value when the stored cursor is 0). -/
theorem C3_staleness_filter (env : Env) (s n : Int) (h0 : 0 ≤ n) (hle : n ≤ s) :
    (process_new_mail env (some s) n).store = some s ∧
    (process_new_mail env (some s) n).historyFetches = 0 ∧
    (process_new_mail env (some s) n).msgFetches = [] ∧
    (process_new_mail env (some s) n).attFetches = [] ∧
    (process_new_mail env (some s) n).uploads = [] := by
  by_cases hs : s = 0
  · subst hs
    have hn0 : n = 0 := le_antisymm hle h0
    subst hn0
    rw [pnm_baseline env (some 0) 0 rfl]
    exact ⟨rfl, rfl, rfl, rfl, rfl⟩
  · rw [pnm_stale env s n hs hle]
    exact ⟨rfl, rfl, rfl, rfl, rfl⟩

/-- C3 witness: stored cursor 50, notification cursor 40 (the spec's
staleness example): no fetches, store remains 50. -/
theorem C3_staleness_filter_witness :
    (process_new_mail lowDeltaEnv (some 50) 40).store = some 50 ∧
    (process_new_mail lowDeltaEnv (some 50) 40).historyFetches = 0 ∧
    (process_new_mail lowDeltaEnv (some 50) 40).uploads = [] := by
  have h := C3_staleness_filter lowDeltaEnv 50 40 (by decide) (by decide)
  exact ⟨h.1, h.2.1, h.2.2.2.2⟩

/-- C6: `collectMessageIds` is duplicate-free and contains exactly the ids
of truthy `messagesAdded` messages carrying an `id` whose `labelIds`
contain `INBOX`. -/
theorem C6_label_filter_dedup (changes : List HistoryChange) :
    (collectMessageIds changes).Nodup ∧
    (∀ mid, mid ∈ collectMessageIds changes ↔
      ∃ ch ∈ changes, ∃ ma ∈ ch.messagesAdded, ∃ msg,
        ma.message = some msg ∧ msg.id = some mid ∧ "INBOX" ∈ msg.labelIds) := by
  refine ⟨nodup_collectMessageIds changes, fun mid => ?_⟩
  rw [mem_collectMessageIds]
  rfl

/-- C6 witness: one `SPAM` record and two `INBOX` records with the same id
collect to the single id `in1`. -/
theorem C6_label_filter_dedup_witness :
    "in1" ∈ collectMessageIds spamInboxChanges ∧
    (collectMessageIds spamInboxChanges).Nodup ∧
    collectMessageIds spamInboxChanges = ["in1"] := by
  have h := C6_label_filter_dedup spamInboxChanges
  refine ⟨?_, h.1, by decide⟩
  exact (h.2 "in1").mpr
    ⟨{ messagesAdded := [spamRec, inboxRec, inboxRec2] }, by decide,
     inboxRec, by decide,
     { id := some "in1", labelIds := ["INBOX"] }, rfl, rfl, by decide⟩

/-- C2 counterexample: with a stored cursor of 10 and a notification cursor
of 11, a provider reporting the start point expired (HttpError 404, here
`expiredEnv`) makes the pass raise: `errored` is true — the claimed absence
of a fatal error is false — and the stored cursor is left at 10, not reset
to any provider-supplied current value. -/
theorem C2_counterexample :
    ¬ ((process_new_mail expiredEnv (some 10) 11).errored = false) ∧
    (process_new_mail expiredEnv (some 10) 11).store = some 10 ∧
    (process_new_mail expiredEnv (some 10) 11).msgFetches = [] := by
  refine ⟨?_, by decide, by decide⟩
  intro h
  exact absurd h (by decide)

/-- C2 amended: when the history fetch raises (lines 192-194 re-raise every
`HttpError`, including the retention-expiry 404), the pass raises, the
stored cursor is unchanged, and no messages are fetched or uploaded. -/
theorem C2_expiry_raises (env : Env) (s n : Int) (code : Nat)
    (hs : s ≠ 0) (hn : s < n) (herr : env.historyList s = .error code) :
    (process_new_mail env (some s) n).errored = true ∧
    (process_new_mail env (some s) n).store = some s ∧
    (process_new_mail env (some s) n).uploads = [] ∧
    (process_new_mail env (some s) n).msgFetches = [] := by
  rw [pnm_error env s n code hs hn herr]
  exact ⟨rfl, rfl, rfl, rfl⟩

/-- C2 witness: the amended behavior at the concrete 404 environment. -/
theorem C2_expiry_raises_witness :
    (process_new_mail expiredEnv (some 20) 21).errored = true ∧
    (process_new_mail expiredEnv (some 20) 21).store = some 20 := by
  have h := C2_expiry_raises expiredEnv 20 21 404 (by decide) (by decide) rfl
  exact ⟨h.1, h.2.1⟩

/-- C1 counterexample: commitment at line 241 is unguarded, so a delta that
reports a cursor (5) lower than the stored cursor (10) while containing
change records lowers the stored value — the unconditional monotonicity
statement is false. -/
theorem C1_counterexample :
    ¬ (∀ (env : Env) (st : Option Int) (n : Int),
        storeLe st (process_new_mail env st n).store) := by
  intro h
  obtain ⟨w, hw, hle⟩ := h lowDeltaEnv (some 10) 11 10 rfl
  have hst : (process_new_mail lowDeltaEnv (some 10) 11).store = some 5 := by decide
  rw [hst] at hw
  injection hw with hw'
  subst hw'
  exact absurd hle (by decide)

/-- C1 amended: provided every successful history fetch reports a cursor at
least the start cursor it was queried from (`goodEnv`, the provider's
documented behavior) and notification cursors are non-negative, one pass
never lowers the held cursor, and along any sequence of sequentially
processed notifications the stored value never decreases. -/
theorem C1_cursor_monotonic :
    (∀ (env : Env) (st : Option Int) (n : Int),
        goodEnv env → 0 ≤ n → storeLe st (process_new_mail env st n).store) ∧
    (∀ (stored : Option Int) (passes : List (Env × Int)),
        (∀ p ∈ passes, goodEnv p.1 ∧ 0 ≤ p.2) →
        List.Chain' storeLe (cursorTrajectory stored passes)) :=
  ⟨fun _ _ _ hg hn => pnm_storeLe hg hn,
   fun stored passes hall => chain_storeLe passes stored hall⟩

/-- C1 witness: under the well-behaved provider `goodDemoEnv` a pass from
stored cursor 10 with notification cursor 11 commits 15, not lower than
10. -/
theorem C1_cursor_monotonic_witness :
    (process_new_mail goodDemoEnv (some 10) 11).store = some 15 ∧ (10 : Int) ≤ 15 := by
  have hgood : goodEnv goodDemoEnv := by
    intro s resp h
    injection h with h'
    subst h'
    show s ≤ (some (s + 5)).getD s
    rw [Option.getD_some]
    omega
  obtain ⟨w, hw, hle⟩ :=
    C1_cursor_monotonic.1 goodDemoEnv (some 10) 11 hgood (by decide) 10 rfl
  have hst : (process_new_mail goodDemoEnv (some 10) 11).store = some 15 := by decide
  rw [hst] at hw
  injection hw with hw'
  subst hw'
  exact ⟨hst, hle⟩

/-- C8: when the history fetch succeeds with a non-empty delta, the pass
completes without raising, every collected message's detail fetch is
attempted, every upload produced by a successfully fetched message is
performed regardless of other messages' failures, and the cursor commits to
the delta's reported cursor. -/
theorem C8_partial_failure_isolation (env : Env) (s n : Int) (resp : HistoryResp)
    (hs : s ≠ 0) (hn : s < n)
    (hok : env.historyList s = .ok resp) (hne : resp.history ≠ []) :
    (process_new_mail env (some s) n).errored = false ∧
    (process_new_mail env (some s) n).store = some (resp.historyId.getD s) ∧
    (process_new_mail env (some s) n).msgFetches = collectMessageIds resp.history ∧
    (∀ m u, m ∈ collectMessageIds resp.history → u ∈ msgUploads env m →
        u ∈ (process_new_mail env (some s) n).uploads) := by
  rw [pnm_changes env s n resp hs hn hok hne]
  refine ⟨rfl, rfl, rfl, ?_⟩
  intro m u hm hu
  exact List.mem_flatMap.mpr ⟨m, hm, hu⟩

/-- C8 witness: `m1` succeeds and `m2`'s detail fetch fails in the same
pass; `m1`'s attachment is uploaded, both fetches were attempted, the pass
completes, and the cursor advances to the delta's reported cursor 42. -/
theorem C8_partial_failure_isolation_witness :
    (process_new_mail mixedEnv (some 10) 11).errored = false ∧
    (process_new_mail mixedEnv (some 10) 11).store = some 42 ∧
    mixedEnv.getMessage "m2" = none ∧
    "m2" ∈ (process_new_mail mixedEnv (some 10) 11).msgFetches ∧
    ("m1/0_report.pdf", "BYTES", "application/pdf")
      ∈ (process_new_mail mixedEnv (some 10) 11).uploads := by
  have h := C8_partial_failure_isolation mixedEnv 10 11 mixedResp
    (by decide) (by decide) rfl (by decide)
  refine ⟨h.1, ?_, rfl, ?_, ?_⟩
  · rw [h.2.1]
    rfl
  · rw [h.2.2.1]
    decide
  · exact h.2.2.2 "m1" _ (by decide) (by decide)

/-- C9: the blob key built at line 236 is collision-free per (message,
part): distinct part indices produce distinct blob names even when the two
parts carry the same original filename. -/
theorem C9_blob_key_unique (msgId : String) (i j : Nat) (f1 f2 : Option String)
    (hij : i ≠ j) :
    destBlobName msgId i (sanitize_filename f1) ≠
      destBlobName msgId j (sanitize_filename f2) := by
  intro h
  apply hij
  have hd := congrArg String.data h
  have e1 : ("_" : String).data = ['_'] := rfl
  have e2 : ∀ l : List Char, (String.mk l).data = l := fun _ => rfl
  simp only [destBlobName, String.data_append, e1, e2, List.append_assoc] at hd
  have hd2 := List.append_cancel_left (List.append_cancel_left hd)
  rw [List.singleton_append, List.singleton_append] at hd2
  exact digits_us_inj hd2

/-- C9 witness: part indices 0 and 1 of one message, both originally named
`report.pdf`, give the distinct keys `m1/0_report.pdf` and
`m1/1_report.pdf`. -/
theorem C9_blob_key_unique_witness :
    destBlobName "m1" 0 (sanitize_filename (some "report.pdf")) ≠
      destBlobName "m1" 1 (sanitize_filename (some "report.pdf")) ∧
    destBlobName "m1" 0 (sanitize_filename (some "report.pdf")) = "m1/0_report.pdf" ∧
    destBlobName "m1" 1 (sanitize_filename (some "report.pdf")) = "m1/1_report.pdf" :=
  ⟨C9_blob_key_unique "m1" 0 1 (some "report.pdf") (some "report.pdf") (by decide),
   by decide, by decide⟩

/-- C7: for every input, `sanitize_filename` returns a non-empty string of
characters from `[A-Za-z0-9_.-]` with no two adjacent underscores and no
leading or trailing character from the strip set; absent or empty input
yields the fixed placeholder `unnamed_attachment`, and a non-empty input
whose sanitized core is empty yields the different fixed placeholder
`attachment`. -/
theorem C7_sanitize_spec (fo : Option String) :
    sanitize_filename fo ≠ "" ∧
    (∀ c ∈ (sanitize_filename fo).data, allowedChar c = true) ∧
    noDoubleUS (sanitize_filename fo).data = true ∧
    (∀ c, (sanitize_filename fo).data.head? = some c → stripSet c = false) ∧
    (∀ c, (sanitize_filename fo).data.getLast? = some c → stripSet c = false) ∧
    ((fo = none ∨ fo = some "") → sanitize_filename fo = "unnamed_attachment") ∧
    (∀ s, fo = some s → s ≠ "" → sanitizeCore s = [] →
      sanitize_filename fo = "attachment") := by
  match fo with
  | none =>
    refine ⟨by decide, by decide, by decide, by decide, by decide, fun _ => rfl, ?_⟩
    intro s hs
    exact absurd hs (by simp)
  | some s =>
    by_cases hse : s = ""
    · subst hse
      refine ⟨by decide, by decide, by decide, by decide, by decide, fun _ => rfl, ?_⟩
      intro t ht hne
      injection ht with ht'
      exact absurd ht'.symm hne
    · have hform : sanitize_filename (some s) =
          (if sanitizeCore s = [] then "attachment" else String.mk (sanitizeCore s)) := by
        show (if s = "" then "unnamed_attachment"
              else if sanitizeCore s = [] then "attachment"
              else String.mk (sanitizeCore s)) =
            (if sanitizeCore s = [] then "attachment" else String.mk (sanitizeCore s))
        rw [if_neg hse]
      by_cases hcore : sanitizeCore s = []
      · rw [hform, if_pos hcore]
        refine ⟨by decide, by decide, by decide, by decide, by decide, ?_, ?_⟩
        · rintro (h | h)
          · cases h
          · injection h with h'
            exact absurd h' hse
        · intro t ht hne hc
          rfl
      · rw [hform, if_neg hcore]
        refine ⟨?_, ?_, ?_, ?_, ?_, ?_, ?_⟩
        · intro hc
          have := congrArg String.data hc
          exact hcore this
        · intro c hc
          exact mem_sanitizeCore_allowed hc
        · exact noDoubleUS_sanitizeCore s
        · intro c hc
          exact stripBoth_head_false hc
        · intro c hc
          exact stripBoth_getLast_false hc
        · rintro (h | h)
          · cases h
          · injection h with h'
            exact absurd h' hse
        · intro t ht hne hc
          injection ht with ht'
          subst ht'
          exact absurd hc hcore

/-- C7 witness: the spec's example input sanitizes to `report_final_.pdf`;
a dot-only name falls to the `attachment` placeholder; the empty name gives
`unnamed_attachment`. -/
theorem C7_sanitize_spec_witness :
    sanitize_filename (some "report (final)!.pdf") ≠ "" ∧
    sanitize_filename (some "report (final)!.pdf") = "report_final_.pdf" ∧
    sanitize_filename (some "...") = "attachment" ∧
    sanitize_filename (some "") = "unnamed_attachment" ∧
    sanitize_filename none = "unnamed_attachment" := by
  refine ⟨(C7_sanitize_spec (some "report (final)!.pdf")).1, by decide, ?_, ?_, ?_⟩
  · exact (C7_sanitize_spec (some "...")).2.2.2.2.2.2 "..." rfl (by decide) (by decide)
  · exact (C7_sanitize_spec (some "")).2.2.2.2.2.1 (Or.inr rfl)
  · exact (C7_sanitize_spec none).2.2.2.2.2.1 (Or.inl rfl)

/- ## C5: endpoint status codes -/
theorem lookupField_ne_nil {fields : List (String × Json)} {k : String} {v : Json}
    (h : lookupField fields k = some v) : fields ≠ [] := by
  intro hf
  subst hf
  simp [lookupField] at h

theorem truthy_obj_of_ne_nil {fields : List (String × Json)} (h : fields ≠ []) :
    (Json.obj fields).truthy = true := by
  cases fields with
  | nil => exact absurd rfl h
  | cons a t => rfl

/-- C5 counterexample: the body carries `data = "WzFd"` (base64 of `[1]`),
which does not decode to a JSON object `(emailAddress, historyId)` — a
malformed notification in the claim's class — yet the endpoint returns 500,
not 400: `notification.get` raises `AttributeError` on the decoded list,
and only `json.JSONDecodeError` is mapped to 400. -/
theorem C5_counterexample :
    process_pubsub_push arrayDataPushEnv
        (some (.obj [("message", .obj [("data", .str "WzFd")])])) ≠ 400 ∧
    process_pubsub_push arrayDataPushEnv
        (some (.obj [("message", .obj [("data", .str "WzFd")])])) = 500 := by
  refine ⟨?_, rfl⟩
  intro h
  exact absurd h (by decide)

/-- C5 amended: with initialized clients, a missing or falsy envelope, a
missing or falsy `message`, a `message` without a `data` field, and a
`data` payload whose base64 and UTF-8 decoding succeed but whose JSON
parse fails all return 400; however a `data` payload whose base64 or UTF-8
decoding fails, or whose JSON parses to a non-object value, returns 500,
because only `json.JSONDecodeError` is mapped to 400. -/
theorem C5_malformed_status (env : PushEnv) (hc : env.clientsOk = true) :
    process_pubsub_push env none = 400 ∧
    (∀ j : Json, j.truthy = false → process_pubsub_push env (some j) = 400) ∧
    (∀ fields, lookupField fields "message" = none →
        process_pubsub_push env (some (.obj fields)) = 400) ∧
    (∀ fields m, lookupField fields "message" = some m → m.truthy = false →
        process_pubsub_push env (some (.obj fields)) = 400) ∧
    (∀ fields mf, lookupField fields "message" = some (.obj mf) →
        lookupField mf "data" = none →
        process_pubsub_push env (some (.obj fields)) = 400) ∧
    (∀ fields mf d, lookupField fields "message" = some (.obj mf) →
        lookupField mf "data" = some (.str d) → env.decodeData d = .jsonError →
        process_pubsub_push env (some (.obj fields)) = 400) ∧
    (∀ fields mf d, lookupField fields "message" = some (.obj mf) →
        lookupField mf "data" = some (.str d) →
        (env.decodeData d = .b64Error ∨ env.decodeData d = .unicodeError) →
        process_pubsub_push env (some (.obj fields)) = 500) ∧
    (∀ fields mf d j, lookupField fields "message" = some (.obj mf) →
        lookupField mf "data" = some (.str d) → env.decodeData d = .value j →
        (∀ nf, j ≠ .obj nf) →
        process_pubsub_push env (some (.obj fields)) = 500) := by
  refine ⟨?_, ?_, ?_, ?_, ?_, ?_, ?_, ?_⟩
  · simp [process_pubsub_push, hc]
  · intro j hj
    simp [process_pubsub_push, hc, hj]
  · intro fields hnone
    by_cases hf : fields = []
    · subst hf
      simp [process_pubsub_push, hc, Json.truthy]
    · have ht := truthy_obj_of_ne_nil hf
      simp [process_pubsub_push, hc, ht, jsonGetAttr, hnone, Json.truthy]
  · intro fields m hm hmt
    have ht := truthy_obj_of_ne_nil (lookupField_ne_nil hm)
    simp [process_pubsub_push, hc, ht, jsonGetAttr, hm, hmt]
  · intro fields mf hm hd
    have ht := truthy_obj_of_ne_nil (lookupField_ne_nil hm)
    by_cases hmf : mf = []
    · subst hmf
      simp [process_pubsub_push, hc, ht, jsonGetAttr, hm, Json.truthy]
    · have hmt := truthy_obj_of_ne_nil hmf
      simp [process_pubsub_push, hc, ht, jsonGetAttr, hm, hmt, hd]
  · intro fields mf d hm hd hj
    have ht := truthy_obj_of_ne_nil (lookupField_ne_nil hm)
    have hmt := truthy_obj_of_ne_nil (lookupField_ne_nil hd)
    simp [process_pubsub_push, hc, ht, jsonGetAttr, hm, hmt, hd, hj]
  · intro fields mf d hm hd hj
    have ht := truthy_obj_of_ne_nil (lookupField_ne_nil hm)
    have hmt := truthy_obj_of_ne_nil (lookupField_ne_nil hd)
    rcases hj with hj | hj <;>
      simp [process_pubsub_push, hc, ht, jsonGetAttr, hm, hmt, hd, hj]
  · intro fields mf d j hm hd hj hno
    have ht := truthy_obj_of_ne_nil (lookupField_ne_nil hm)
    have hmt := truthy_obj_of_ne_nil (lookupField_ne_nil hd)
    cases j with
    | obj nf => exact absurd rfl (hno nf)
    | null => simp [process_pubsub_push, hc, ht, jsonGetAttr, hm, hmt, hd, hj]
    | boolean b => simp [process_pubsub_push, hc, ht, jsonGetAttr, hm, hmt, hd, hj]
    | num n => simp [process_pubsub_push, hc, ht, jsonGetAttr, hm, hmt, hd, hj]
    | str s => simp [process_pubsub_push, hc, ht, jsonGetAttr, hm, hmt, hd, hj]
    | arr el => simp [process_pubsub_push, hc, ht, jsonGetAttr, hm, hmt, hd, hj]

/-- C5 witness: concrete malformed bodies — no body, empty-object body,
message without data, and data whose JSON parse fails — all return 400. -/
theorem C5_malformed_status_witness :
    process_pubsub_push jsonErrorPushEnv none = 400 ∧
    process_pubsub_push jsonErrorPushEnv (some (.obj [])) = 400 ∧
    process_pubsub_push jsonErrorPushEnv
      (some (.obj [("message", .obj [("other", .null)])])) = 400 ∧
    process_pubsub_push jsonErrorPushEnv
      (some (.obj [("message", .obj [("data", .str "notjson")])])) = 400 := by
  have h := C5_malformed_status jsonErrorPushEnv rfl
  refine ⟨h.1, h.2.1 (.obj []) rfl, ?_, ?_⟩
  · exact h.2.2.2.2.1 [("message", .obj [("other", .null)])] [("other", .null)] rfl rfl
  · exact h.2.2.2.2.2.1 [("message", .obj [("data", .str "notjson")])]
      [("data", .str "notjson")] "notjson" rfl rfl rfl
